import Mathlib

/-!
Shallow embedding of the smart-reader content pipeline of
`src/utils/smart_reader.py`: URL classification, the HTML and PDF
extraction paths, reference mining, and the Markdown formatter.

Python strings are modelled as lists of characters.  The external
effects (the rendering engine, HTTP fetches, the trafilatura and
pymupdf libraries) are modelled as an oracle record of
`Except`-valued functions, so that an exception raised inside the
Python `try` blocks corresponds to an `Except.error` value carrying
the text of `str(e)`.  Character classes of the Python regular
expressions (`\d`, `\s`) and `str.lower`/`str.upper`/`str.strip`
are modelled over ASCII.
-/

namespace SmartReader

/-- Python strings are modelled as lists of characters. -/
abbrev Str := List Char

/-- Embed a Lean string literal into the model type. -/
def s (x : String) : Str := x.data

/-- The backslash character. -/
def bs : Char := Char.ofNat 92

/-- The single-quote character. -/
def sq : Char := Char.ofNat 39

/-- The double-quote character. -/
def dq : Char := Char.ofNat 34

/-- Python `\s` / `str.strip` whitespace, restricted to ASCII:
space, tab, newline, carriage return, vertical tab, form feed. -/
def pyIsSpace (c : Char) : Bool :=
  c = ' ' || c = Char.ofNat 9 || c = Char.ofNat 10 || c = Char.ofNat 13 ||
  c = Char.ofNat 11 || c = Char.ofNat 12

/-- Python `str.strip()` with no argument: drop leading and trailing whitespace. -/
def pyStrip (t : Str) : Str :=
  ((t.dropWhile pyIsSpace).reverse.dropWhile pyIsSpace).reverse

/-- `isPrefAt p t` holds when `p` occurs at the very start of `t`. -/
def isPrefAt (p t : Str) : Bool := decide (t.take p.length = p)

/-- Python's substring test `p in t`: `p` occurs contiguously somewhere in `t`. -/
def containsSub (p : Str) : Str → Bool
  | [] => isPrefAt p []
  | c :: rest => isPrefAt p (c :: rest) || containsSub p rest

/-- Python `sep.join(parts)`. -/
def joinSep (sep : Str) : List Str → Str
  | [] => []
  | [x] => x
  | x :: y :: rest => x ++ sep ++ joinSep sep (y :: rest)

/-- Escaping of one character inside a Python `repr` of a string quoted by `q`. -/
def pyEscapeChar (q c : Char) : Str :=
  if c = bs then [bs, bs]
  else if c = q then [bs, q]
  else if c = Char.ofNat 10 then [bs, 'n']
  else if c = Char.ofNat 13 then [bs, 'r']
  else if c = Char.ofNat 9 then [bs, 't']
  else [c]

/-- Python `repr` of a string: single quotes by default, double quotes when the
string contains a single quote but no double quote (other escapes beyond
backslash, the quote character, newline, carriage return and tab are not
modelled; the pipeline never produces them here). -/
def pyReprStr (x : Str) : Str :=
  if x.contains sq && !(x.contains dq) then dq :: x.flatMap (pyEscapeChar dq) ++ [dq]
  else sq :: x.flatMap (pyEscapeChar sq) ++ [sq]

/-- Python `str(listOfStrings)`: bracketed, comma-separated `repr`s of the
elements.  This is the rendering the miner's near-duplicate check runs
`in` against. -/
def pyStrListRender (l : List Str) : Str :=
  '[' :: joinSep (s ", ") (l.map pyReprStr) ++ [']']

/-! ### The three reference-pattern scanners (`re.findall`, smart_reader.py lines 60-82) -/

/-- One attempted match of `\[(\d+)\]\s*([^\[\]]{10,200})` at the head of `t`.
Returns the two capture groups and the remainder of the text after the match.
The interplay of the greedy `\s*` with the greedy bounded `[^\[\]]{10,200}`
(whitespace is itself a non-bracket character, so the engine backtracks on
`\s*` when fewer than 10 non-bracket characters would remain) is resolved in
closed form: with `w` leading whitespace characters and `m` leading
non-bracket characters after the `]`, the match consumes
`j = min w (m - 10)` whitespace and then `min 200 (m - j)` group-2
characters, and exists precisely when `10 ≤ m`. -/
def matchBracketRef (t : Str) : Option ((Str × Str) × Str) :=
  match t with
  | '[' :: r1 =>
    let num := r1.takeWhile Char.isDigit
    if num = [] then none else
    match r1.dropWhile Char.isDigit with
    | ']' :: r3 =>
      let w := (r3.takeWhile pyIsSpace).length
      let m := (r3.takeWhile (fun c => ¬ (c = '[' ∨ c = ']'))).length
      if m < 10 then none else
      let j := min w (m - 10)
      let L := min 200 (m - j)
      some ((num, (r3.drop j).take L), r3.drop (j + L))
    | _ => none
  | _ => none

/-- `re.findall` driver for the bracketed-citation pattern: try a match at each
position left to right, continuing after the end of each match.  The fuel
argument bounds the recursion; it is initialised to the text length, which
suffices because every step consumes at least one character. -/
def scanBracketsAux : Nat → Str → List (Str × Str)
  | 0, _ => []
  | _, [] => []
  | fuel + 1, c :: rest =>
    match matchBracketRef (c :: rest) with
    | some (g, after) => g :: scanBracketsAux fuel after
    | none => scanBracketsAux fuel rest

/-- All matches of the bracketed-citation pattern, in scan order. -/
def scanBrackets (t : Str) : List (Str × Str) := scanBracketsAux t.length t

/-- One attempted match of `(10\.\d{4,}/[^\s]+)` at the head of `t`:
"10." then at least four digits, a slash, and a maximal non-empty run of
non-whitespace characters.  Returns the matched text and the remainder. -/
def matchDoi (t : Str) : Option (Str × Str) :=
  match t with
  | '1' :: '0' :: '.' :: r1 =>
    let ds := r1.takeWhile Char.isDigit
    if ds.length < 4 then none else
    match r1.dropWhile Char.isDigit with
    | '/' :: r2 =>
      let tl := r2.takeWhile (fun c => ¬ pyIsSpace c)
      if tl = [] then none else
      some ('1' :: '0' :: '.' :: (ds ++ '/' :: tl), r2.drop tl.length)
    | _ => none
  | _ => none

/-- `re.findall` driver for the DOI pattern. -/
def scanDoisAux : Nat → Str → List Str
  | 0, _ => []
  | _, [] => []
  | fuel + 1, c :: rest =>
    match matchDoi (c :: rest) with
    | some (m, after) => m :: scanDoisAux fuel after
    | none => scanDoisAux fuel rest

/-- All matches of the DOI pattern, in scan order. -/
def scanDois (t : Str) : List Str := scanDoisAux t.length t

/-- One attempted match of `(arXiv:\d{4}\.\d{4,5}(?:v\d+)?)` with
`re.IGNORECASE` at the head of `t`: the literal `arXiv:` case-insensitively,
four digits, a dot, four or five digits (greedy), and an optional
case-insensitive `v` followed by at least one digit.  The matched text keeps
its original casing, as `re.findall` returns it. -/
def matchArxiv (t : Str) : Option (Str × Str) :=
  if (t.take 6).map Char.toLower = s "arxiv:" then
    let r1 := t.drop 6
    if (r1.take 4).length = 4 && (r1.take 4).all Char.isDigit then
      match r1.drop 4 with
      | '.' :: r2 =>
        let d2 := r2.takeWhile Char.isDigit
        if d2.length < 4 then none else
        let k := min 5 d2.length
        let base := 6 + 4 + 1 + k
        match r2.drop k with
        | v :: r4 =>
          if v.toLower = 'v' then
            let vd := r4.takeWhile Char.isDigit
            if vd = [] then some (t.take base, t.drop base)
            else some (t.take (base + 1 + vd.length), t.drop (base + 1 + vd.length))
          else some (t.take base, t.drop base)
        | [] => some (t.take base, t.drop base)
      | _ => none
    else none
  else none

/-- `re.findall` driver for the arXiv pattern. -/
def scanArxivAux : Nat → Str → List Str
  | 0, _ => []
  | _, [] => []
  | fuel + 1, c :: rest =>
    match matchArxiv (c :: rest) with
    | some (m, after) => m :: scanArxivAux fuel after
    | none => scanArxivAux fuel rest

/-- All matches of the arXiv pattern, in scan order. -/
def scanArxiv (t : Str) : List Str := scanArxivAux t.length t

/-! ### `_extract_references_from_text` (smart_reader.py lines 60-82) -/

/-- The bracketed-citation entries, each formatted back as
`f"[{num}] {ref.strip()}"`. -/
def bracket_entries (text : Str) : List Str :=
  (scanBrackets text).map (fun g => '[' :: g.1 ++ ']' :: ' ' :: pyStrip g.2)

/-- One step of the DOI loop: `if doi not in str(references):
references.append(f"DOI: {doi}")`. -/
def doi_step (acc : List Str) (doi : Str) : List Str :=
  if containsSub doi (pyStrListRender acc) then acc else acc ++ [s "DOI: " ++ doi]

/-- One step of the arXiv loop: `if ref not in str(references):
references.append(ref)`. -/
def arxiv_step (acc : List Str) (ref : Str) : List Str :=
  if containsSub ref (pyStrListRender acc) then acc else acc ++ [ref]

/-- The accumulator contents just before the final truncation: bracketed
citations, then DOI entries, then arXiv entries. -/
def all_references (text : Str) : List Str :=
  (scanArxiv text).foldl arxiv_step ((scanDois text).foldl doi_step (bracket_entries text))

/-- `_extract_references_from_text`: the accumulator truncated to its first 50
entries (`references[:50]`). -/
def extract_references_from_text (text : Str) : List Str :=
  (all_references text).take 50

/-! ### `_is_pdf_url` (smart_reader.py lines 214-230), with the path component
computed as CPython's `urllib.parse.urlparse` does -/

/-- Characters allowed after the first character of a URL scheme. -/
def schemeChar (c : Char) : Bool := c.isAlphanum || c = '+' || c = '-' || c = '.'

/-- CPython's `urlsplit` removal of the unsafe bytes tab, carriage return and
newline before parsing. -/
def removeUnsafeBytes (u : Str) : Str :=
  u.filter (fun c => ¬ (c = Char.ofNat 9 ∨ c = Char.ofNat 13 ∨ c = Char.ofNat 10))

/-- Strip a leading `scheme:` when the text before the first colon is a valid
scheme (an ASCII letter followed by scheme characters). -/
def stripScheme (u : Str) : Str :=
  match u.findIdx? (fun c => c = ':') with
  | none => u
  | some i =>
    if 0 < i ∧ (u.headD ' ').isAlpha ∧ ((u.take i).drop 1).all schemeChar
    then u.drop (i + 1) else u

/-- Strip a leading `//netloc`, the netloc extending to the first of
`/`, `?` or `#`. -/
def stripNetloc (u : Str) : Str :=
  if u.take 2 = s "//" then
    (u.drop 2).dropWhile (fun c => ¬ (c = '/' ∨ c = '?' ∨ c = '#'))
  else u

/-- Cut the URL at the first `#` (the fragment). -/
def dropFragment (u : Str) : Str := u.takeWhile (fun c => c ≠ '#')

/-- Cut the URL at the first `?` (the query). -/
def dropQuery (u : Str) : Str := u.takeWhile (fun c => c ≠ '?')

/-- `urlparse`'s splitting of the `;parameters` suffix off the last path
segment (CPython `_splitparams`). -/
def splitParamsPath (p : Str) : Str :=
  if p.contains ';' then
    if p.contains '/' then
      let i := p.length - 1 - ((p.reverse.findIdx? (fun c => c = '/')).getD 0)
      match (p.drop i).findIdx? (fun c => c = ';') with
      | some j => p.take (i + j)
      | none => p
    else p.takeWhile (fun c => c ≠ ';')
  else p

/-- The `.path` component CPython's `urlparse(url)` RETURNS on its
non-raising path.  `urlparse` can also raise `ValueError` out of `urlsplit`;
that raise path is modelled separately by `urlsplit_error`, and the
`Except`-valued composition is `urlparse_path_exc` below.  (The WHATWG
leading/trailing-control stripping is not modelled.) -/
def urlparse_path (url : Str) : Str :=
  splitParamsPath (dropQuery (dropFragment (stripNetloc (stripScheme (removeUnsafeBytes url)))))

/-- The netloc `urlsplit` extracts: the text between a leading `//` (after
scheme stripping and unsafe-byte removal) and the first `/`, `?` or `#`;
empty when the URL has no `//` there. -/
def url_netloc (url : Str) : Str :=
  let u := stripScheme (removeUnsafeBytes url)
  if u.take 2 = s "//" then
    (u.drop 2).takeWhile (fun c => ¬ (c = '/' ∨ c = '?' ∨ c = '#'))
  else []

/-- The `ValueError` CPython's `urlsplit` raises on an unmatched square
bracket in the netloc (`raise ValueError("Invalid IPv6 URL")`), present in
every CPython version; `none` when the netloc's brackets are matched or
absent.  CPython 3.11+ additionally validates a matched-bracket host as an
IP address and every version applies an NFKC check to non-ASCII netlocs —
further raise paths not modelled here, which is why the universally
quantified classifier theorems below restrict themselves to bracket-free
netlocs, where no CPython version raises on ASCII input. -/
def urlsplit_error (url : Str) : Option Str :=
  let netloc := url_netloc url
  if ('[' ∈ netloc ∧ ¬ ']' ∈ netloc) ∨ (']' ∈ netloc ∧ ¬ '[' ∈ netloc)
  then some (s "Invalid IPv6 URL") else none

/-- `urlparse(url).path` with its exception channel: `.error` when
`urlsplit` raises, else the path of the non-raising computation. -/
def urlparse_path_exc (url : Str) : Except Str Str :=
  match urlsplit_error url with
  | some e => .error e
  | none => .ok (urlparse_path url)

/-- The fixed provider-pattern substrings checked against the lowercased URL. -/
def pdf_patterns : List Str :=
  [s "/pdf/", s "/download/pdf", s "arxiv.org/pdf", s "export=download"]

/-- The value `_is_pdf_url` computes when `urlparse(url)` does not raise:
the lowercased path ends in `.pdf`, or one of the fixed patterns occurs in
the lowercased URL.  The classifier's own exception channel — `urlparse`
raising out of it, since nothing in `_is_pdf_url` catches — is
`is_pdf_url_exc` below. -/
def is_pdf_url (url : Str) : Bool :=
  if (s ".pdf").isSuffixOf ((urlparse_path url).map Char.toLower) then true
  else pdf_patterns.any (fun p => containsSub p (url.map Char.toLower))

/-- `_is_pdf_url` as the caller observes it: the `urlparse(url)` call on its
first line is unguarded, so a `ValueError` from `urlsplit` propagates out of
the classifier instead of a Boolean being returned. -/
def is_pdf_url_exc (url : Str) : Except Str Bool :=
  match urlparse_path_exc url with
  | .error e => .error e
  | .ok _ => .ok (is_pdf_url url)

/-! ### PDF creation-date parsing and blank-line collapsing
(smart_reader.py lines 170-175 and 198) -/

/-- The anchored match of `re.match(r"D:(\d{4})(\d{2})(\d{2})", cd)`:
`D:` followed by eight digits, returning the year, month and day groups. -/
def pdfDateMatch (cd : Str) : Option (Str × Str × Str) :=
  match cd with
  | 'D' :: ':' :: rest =>
    let ds := rest.take 8
    if ds.length = 8 ∧ ds.all Char.isDigit
    then some (ds.take 4, (ds.drop 4).take 2, ds.drop 6) else none
  | _ => none

/-- The creation-date parse of `parse_pdf`: skip a falsy (empty) stamp, else
format the matched groups as `YYYY-MM-DD`; a failed match leaves the date
unset. -/
def parseCreationDate (cd : Str) : Option Str :=
  if cd = [] then none
  else
    match pdfDateMatch cd with
    | some (y, m, d) => some (y ++ '-' :: m ++ '-' :: d)
    | none => none

/-- Emit a pending run of `n` newlines as `re.sub(r"\n{3,}", "\n\n", ·)`
would leave it: runs of three or more collapse to exactly two. -/
def emitRun (n : Nat) : Str :=
  if 3 ≤ n then s "\n\n" else List.replicate n (Char.ofNat 10)

/-- Worker for the blank-line collapse, carrying the length of the current
pending newline run. -/
def collapseGo : Str → Nat → Str
  | [], n => emitRun n
  | c :: rest, n =>
    if c = Char.ofNat 10 then collapseGo rest (n + 1)
    else emitRun n ++ c :: collapseGo rest 0

/-- `re.sub(r"\n{3,}", "\n\n", content)`: collapse every maximal run of three
or more newlines to a blank line. -/
def collapseBlankLines (t : Str) : Str := collapseGo t 0

/-! ### The `ReadResult` dataclass (smart_reader.py lines 22-32) -/

/-- The pipeline's sole output type, with the dataclass's default field
values: the error constructors in the source pass only `content`, `url` and
`error`, so every other field keeps its default there — in particular
`content_type` stays `"html"`. -/
structure ReadResult where
  content : Str
  title : Option Str := none
  author : Option Str := none
  publish_date : Option Str := none
  url : Option Str := none
  content_type : Str := s "html"
  references : List Str := []
  error : Option Str := none
deriving DecidableEq

/-- Metadata as returned by trafilatura's `extract_metadata` (only the three
fields the source reads). -/
structure HtmlMeta where
  title : Option Str
  author : Option Str
  date : Option Str
deriving DecidableEq

/-- A pymupdf document as the source reads it: `metadata.get` with default
`""` for the three fields, and the per-page `get_text("text")` results. -/
structure PdfDoc where
  title : Str
  author : Str
  creationDate : Str
  pages : List Str
deriving DecidableEq

/-- The external world of one pipeline invocation.  Each field models one
effectful call in the source; `Except.error e` models that call raising an
exception whose `str(e)` is `e`. -/
structure Oracle where
  fetchRendered : Str → Except Str Str
  fetchPlain : Str → Except Str Str
  extractMetadata : Str → Except Str (Option HtmlMeta)
  extractContent : Str → Except Str (Option Str)
  download : Str → Except Str Str
  openDoc : Str → Except Str PdfDoc

/-! ### `_read_html` (smart_reader.py lines 85-140) -/

/-- The domain-specific message for an HTML page with no extractable body. -/
def noContentMsg : Str := s "无法从该网页提取到有效正文，可能是纯图片网页或受严密保护。"

/-- `_read_html`: fetch (rendered or plain per the flag), extract metadata and
body; any exception becomes the `HTML 读取失败: ` error result, a falsy body
(`None` or `""`) becomes the no-content error result, and otherwise a
populated success result is assembled. -/
def read_html (o : Oracle) (url : Str) (use_playwright : Bool) : ReadResult :=
  match (if use_playwright then o.fetchRendered url else o.fetchPlain url) with
  | .error e => { content := [], url := some url, error := some (s "HTML 读取失败: " ++ e) }
  | .ok html =>
    match o.extractMetadata html with
    | .error e => { content := [], url := some url, error := some (s "HTML 读取失败: " ++ e) }
    | .ok metadata =>
      match o.extractContent html with
      | .error e => { content := [], url := some url, error := some (s "HTML 读取失败: " ++ e) }
      | .ok none => { content := [], url := some url, error := some noContentMsg }
      | .ok (some []) => { content := [], url := some url, error := some noContentMsg }
      | .ok (some text_content) =>
        { content := text_content,
          title := match metadata with | some m => m.title | none => none,
          author := match metadata with | some m => m.author | none => none,
          publish_date := match metadata with | some m => m.date | none => none,
          url := some url,
          content_type := s "html",
          references := extract_references_from_text text_content }

/-! ### `_read_pdf` and its inner `parse_pdf` (smart_reader.py lines 143-211) -/

/-- The page entry `f"## 第 {page_num + 1} 页\n\n{text}"` for the 0-based
page index `n`. -/
def pdf_page_entry (n : Nat) (text : Str) : Str :=
  s "## 第 " ++ (Nat.repr (n + 1)).data ++ s " 页\n\n" ++ text

/-- The page loop of `parse_pdf`, carried with the current 0-based page
index: a page whose text strips to empty contributes nothing. -/
def pdf_full_text_aux : Nat → List Str → List Str
  | _, [] => []
  | n, t :: rest =>
    if pyStrip t ≠ [] then pdf_page_entry n t :: pdf_full_text_aux (n + 1) rest
    else pdf_full_text_aux (n + 1) rest

/-- The `full_text` list built by `parse_pdf` over all pages. -/
def pdf_full_text (pages : List Str) : List Str := pdf_full_text_aux 0 pages

/-- `_read_pdf`: download the bytes and open the document (any exception
becomes the `PDF 读取失败: ` error result), then assemble metadata, the
joined page text, the mined references and the blank-line-collapsed content.
`title or None` / `author or None` turn empty metadata strings into `none`. -/
def read_pdf (o : Oracle) (url : Str) : ReadResult :=
  match o.download url with
  | .error e => { content := [], url := some url, error := some (s "PDF 读取失败: " ++ e) }
  | .ok b =>
    match o.openDoc b with
    | .error e => { content := [], url := some url, error := some (s "PDF 读取失败: " ++ e) }
    | .ok doc =>
      let content0 := joinSep (s "\n\n") (pdf_full_text doc.pages)
      { content := collapseBlankLines content0,
        title := if doc.title = [] then none else some doc.title,
        author := if doc.author = [] then none else some doc.author,
        publish_date := parseCreationDate doc.creationDate,
        url := some url,
        content_type := s "pdf",
        references := extract_references_from_text content0 }

/-! ### `smart_read` and `smart_read_to_markdown` (smart_reader.py lines 233-302) -/

/-- `smart_read`: classify by URL and dispatch to the PDF or HTML path. -/
def smart_read (o : Oracle) (url : Str) (use_playwright : Bool) : ReadResult :=
  if is_pdf_url url then read_pdf o url else read_html o url use_playwright

/-- The metadata block lines: author and publish date only when truthy,
source link and upper-cased content type always. -/
def meta_parts (url : Str) (r : ReadResult) : List Str :=
  (match r.author with
   | some a => if a ≠ [] then [s "**作者**: " ++ a] else []
   | none => []) ++
  (match r.publish_date with
   | some d => if d ≠ [] then [s "**发布日期**: " ++ d] else []
   | none => []) ++
  [s "**来源**: [" ++ url ++ s "](" ++ url ++ s ")",
   s "**类型**: " ++ r.content_type.map Char.toUpper]

/-- The heading of the references section. -/
def ref_header : Str := s "\n---\n## 参考文献\n"

/-- The first four `output_parts`: title line (placeholder when the title is
falsy), metadata block, separator, body. -/
def base_parts (url : Str) (r : ReadResult) : List Str :=
  [(match r.title with
    | some t => if t ≠ [] then s "# " ++ t else s "# 未知标题"
    | none => s "# 未知标题"),
   joinSep (s "\n") (meta_parts url r),
   s "---",
   r.content]

/-- The full `output_parts` list: the references section is appended exactly
when `references` is truthy. -/
def output_parts (url : Str) (r : ReadResult) : List Str :=
  base_parts url r ++
  (if r.references ≠ [] then ref_header :: r.references.map (fun ref => s "- " ++ ref) else [])

/-- The formatting half of `smart_read_to_markdown`, over an already-obtained
result: the failure report when `error` is set, else the double-newline join
of `output_parts`. -/
def smart_read_to_markdown_of (url : Str) (result : ReadResult) : Str :=
  match result.error with
  | some err => s "# 读取失败\n\n**错误**: " ++ err ++ s "\n**URL**: " ++ url
  | none => joinSep (s "\n\n") (output_parts url result)

/-- `smart_read_to_markdown`: the pipeline composed with the formatter, on
the non-raising classification path. -/
def smart_read_to_markdown (o : Oracle) (url : Str) (use_playwright : Bool) : Str :=
  smart_read_to_markdown_of url (smart_read o url use_playwright)

/-- `smart_read` as the caller observes it: `_is_pdf_url(url)` runs at
smart_reader.py line 248, OUTSIDE every `try` block of the pipeline, so a
`ValueError` raised by `urlparse` escapes the public entry point as an
exception (`.error e` with `str(e) = e`) rather than being converted into a
`ReadResult`; on the non-raising path the total pipeline value is returned. -/
def smart_read_exc (o : Oracle) (url : Str) (use_playwright : Bool) : Except Str ReadResult :=
  match is_pdf_url_exc url with
  | .error e => .error e
  | .ok _ => .ok (smart_read o url use_playwright)

/-- `smart_read_to_markdown` as the caller observes it: it awaits
`smart_read` outside any `try`, so the same classification exception escapes
this entry point too. -/
def smart_read_to_markdown_exc (o : Oracle) (url : Str) (use_playwright : Bool) :
    Except Str Str :=
  match smart_read_exc o url use_playwright with
  | .error e => .error e
  | .ok r => .ok (smart_read_to_markdown_of url r)

/-! ### Concrete oracles used by witnesses and counterexamples -/

/-- An environment in which every external call fails. -/
def failOracle : Oracle :=
  { fetchRendered := fun _ => .error (s "timeout"),
    fetchPlain := fun _ => .error (s "timeout"),
    extractMetadata := fun _ => .error (s "boom"),
    extractContent := fun _ => .error (s "boom"),
    download := fun _ => .error (s "404"),
    openDoc := fun _ => .error (s "bad pdf") }

/-- An environment whose PDF download succeeds and opens to a document with a
single whitespace-only page and empty metadata. -/
def wsPdfOracle : Oracle :=
  { failOracle with
    download := fun _ => .ok (s "%PDF"),
    openDoc := fun _ => .ok { title := [], author := [], creationDate := [], pages := [s " "] } }

/-- An environment whose HTML fetch succeeds and whose content extraction
returns a whitespace-only (hence truthy) body. -/
def wsHtmlOracle : Oracle :=
  { failOracle with
    fetchRendered := fun _ => .ok (s "<html></html>"),
    fetchPlain := fun _ => .ok (s "<html></html>"),
    extractMetadata := fun _ => .ok none,
    extractContent := fun _ => .ok (some (s " ")) }

/-- An environment whose HTML fetch succeeds but whose content extraction
finds nothing (`None`). -/
def emptyHtmlOracle : Oracle :=
  { failOracle with
    fetchRendered := fun _ => .ok (s "<html></html>"),
    fetchPlain := fun _ => .ok (s "<html></html>"),
    extractMetadata := fun _ => .ok none,
    extractContent := fun _ => .ok none }

/-- A fully populated success result used to exercise the formatter. -/
def sampleResult : ReadResult :=
  { content := s "Body", title := some (s "T"), author := some (s "A"),
    url := some (s "http://ex.com"), references := [], error := none }

/-- A success result carrying only a body, every other field at its default. -/
def plainResult : ReadResult := { content := s "Body" }

/-! ## Helper lemmas -/

theorem strcat_ne_nil {a : Str} (h : a ≠ []) (b : Str) : a ++ b ≠ [] :=
  List.append_ne_nil_of_left_ne_nil h b

theorem isPrefAt_take {p t : Str} (h : isPrefAt p t = true) : t.take p.length = p :=
  of_decide_eq_true h

theorem isPrefAt_length_le {p t : Str} (h : isPrefAt p t = true) : p.length ≤ t.length := by
  have h1 := congrArg List.length (isPrefAt_take h)
  rw [List.length_take] at h1
  calc p.length = p.length ⊓ t.length := h1.symm
    _ ≤ t.length := inf_le_right

theorem isPrefAt_append {p t : Str} (b : Str) (h : isPrefAt p t = true) :
    isPrefAt p (t ++ b) = true := by
  have hle := isPrefAt_length_le h
  have h1 := isPrefAt_take h
  unfold isPrefAt
  rw [List.take_append_eq_append_take, Nat.sub_eq_zero_of_le hle, List.take_zero,
    List.append_nil, h1]
  simp

theorem containsSub_nil_pat : ∀ t : Str, containsSub [] t = true
  | [] => by simp [containsSub, isPrefAt]
  | _ :: _ => by simp [containsSub, isPrefAt]

theorem containsSub_append_right {p : Str} :
    ∀ (a b : Str), containsSub p a = true → containsSub p (a ++ b) = true
  | [], b, h => by
    simp only [containsSub, isPrefAt, List.take_nil, decide_eq_true_eq] at h
    subst h
    exact containsSub_nil_pat b
  | a :: as, b, h => by
    simp only [containsSub, Bool.or_eq_true] at h
    rcases h with h | h
    · simp only [List.cons_append, containsSub, Bool.or_eq_true]
      exact Or.inl (isPrefAt_append b h)
    · simp only [List.cons_append, containsSub, Bool.or_eq_true]
      exact Or.inr (containsSub_append_right as b h)

theorem containsSub_append_left {p b : Str} (h : containsSub p b = true) :
    ∀ a : Str, containsSub p (a ++ b) = true
  | [] => h
  | c :: a' => by
    simp only [List.cons_append, containsSub, Bool.or_eq_true]
    exact Or.inr (containsSub_append_left h a')

theorem containsSub_self : ∀ p : Str, containsSub p p = true
  | [] => containsSub_nil_pat []
  | c :: rest => by
    simp only [containsSub, Bool.or_eq_true]
    refine Or.inl ?_
    unfold isPrefAt
    rw [List.take_length]
    simp

theorem containsSub_joinSep (sep : Str) {p x : Str} (hp : containsSub p x = true) :
    ∀ l : List Str, x ∈ l → containsSub p (joinSep sep l) = true
  | [], hx => absurd hx (List.not_mem_nil x)
  | [y], hx => by
    rcases List.mem_singleton.mp hx with rfl
    simpa [joinSep] using hp
  | y :: z :: rest, hx => by
    simp only [joinSep]
    rcases List.mem_cons.mp hx with rfl | hx
    · exact containsSub_append_right _ _ (containsSub_append_right _ _ hp)
    · exact containsSub_append_left (containsSub_joinSep sep hp (z :: rest) hx) _

theorem foldl_step_extends (step : List Str → Str → List Str)
    (hstep : ∀ acc x, step acc x = acc ∨ ∃ y, step acc x = acc ++ [y]) :
    ∀ (xs : List Str) (acc : List Str), ∃ extra, xs.foldl step acc = acc ++ extra
  | [], acc => ⟨[], by simp⟩
  | x :: xs, acc => by
    rcases hstep acc x with h | ⟨y, h⟩
    · rcases foldl_step_extends step hstep xs acc with ⟨extra, he⟩
      exact ⟨extra, by rw [List.foldl_cons, h, he]⟩
    · rcases foldl_step_extends step hstep xs (acc ++ [y]) with ⟨extra, he⟩
      exact ⟨[y] ++ extra, by rw [List.foldl_cons, h, he, List.append_assoc]⟩

theorem doi_step_shape (acc : List Str) (x : Str) :
    doi_step acc x = acc ∨ ∃ y, doi_step acc x = acc ++ [y] := by
  unfold doi_step
  split
  · exact Or.inl rfl
  · exact Or.inr ⟨_, rfl⟩

theorem arxiv_step_shape (acc : List Str) (x : Str) :
    arxiv_step acc x = acc ∨ ∃ y, arxiv_step acc x = acc ++ [y] := by
  unfold arxiv_step
  split
  · exact Or.inl rfl
  · exact Or.inr ⟨_, rfl⟩

theorem pdf_full_text_aux_eq : ∀ (pages : List Str) (n : Nat),
    pdf_full_text_aux n pages = (List.enumFrom n pages).filterMap
      (fun q => if pyStrip q.2 ≠ [] then some (pdf_page_entry q.1 q.2) else none)
  | [], n => by simp [pdf_full_text_aux]
  | t :: rest, n => by
    by_cases h : pyStrip t = []
    · simp [pdf_full_text_aux, List.enumFrom_cons, List.filterMap_cons, h,
        pdf_full_text_aux_eq rest (n + 1)]
    · simp [pdf_full_text_aux, List.enumFrom_cons, List.filterMap_cons, h,
        pdf_full_text_aux_eq rest (n + 1)]

theorem pdf_full_text_aux_nil :
    ∀ pages : List Str, (∀ t ∈ pages, pyStrip t = []) → ∀ n, pdf_full_text_aux n pages = []
  | [], _, _ => rfl
  | t :: rest, h, n => by
    have ht := h t (List.mem_cons_self t rest)
    simp [pdf_full_text_aux, ht,
      pdf_full_text_aux_nil rest (fun x hx => h x (List.mem_cons_of_mem t hx)) (n + 1)]

theorem pdf_full_text_nil {pages : List Str} (h : ∀ t ∈ pages, pyStrip t = []) :
    pdf_full_text pages = [] :=
  pdf_full_text_aux_nil pages h 0

theorem read_html_shape (o : Oracle) (url : Str) (upw : Bool) :
    (∃ e, e ≠ [] ∧ read_html o url upw = { content := [], url := some url, error := some e }) ∨
    ((read_html o url upw).error = none ∧ (read_html o url upw).content ≠ [] ∧
     (read_html o url upw).content_type = s "html" ∧ (read_html o url upw).url = some url) := by
  unfold read_html
  split
  · exact Or.inl ⟨_, strcat_ne_nil (by decide) _, rfl⟩
  · split
    · exact Or.inl ⟨_, strcat_ne_nil (by decide) _, rfl⟩
    · split
      · exact Or.inl ⟨_, strcat_ne_nil (by decide) _, rfl⟩
      · exact Or.inl ⟨noContentMsg, by decide, rfl⟩
      · exact Or.inl ⟨noContentMsg, by decide, rfl⟩
      · rename_i tc hne heq
        exact Or.inr ⟨rfl, hne, rfl, rfl⟩

theorem read_pdf_shape (o : Oracle) (url : Str) :
    (∃ e, e ≠ [] ∧ read_pdf o url = { content := [], url := some url, error := some e }) ∨
    (∃ b doc, o.download url = .ok b ∧ o.openDoc b = .ok doc ∧
      read_pdf o url =
        { content := collapseBlankLines (joinSep (s "\n\n") (pdf_full_text doc.pages)),
          title := if doc.title = [] then none else some doc.title,
          author := if doc.author = [] then none else some doc.author,
          publish_date := parseCreationDate doc.creationDate,
          url := some url, content_type := s "pdf",
          references := extract_references_from_text
            (joinSep (s "\n\n") (pdf_full_text doc.pages)) }) := by
  unfold read_pdf
  split
  · exact Or.inl ⟨_, strcat_ne_nil (by decide) _, rfl⟩
  · rename_i b hb
    split
    · exact Or.inl ⟨_, strcat_ne_nil (by decide) _, rfl⟩
    · rename_i doc hdoc
      exact Or.inr ⟨b, doc, hb, hdoc, rfl⟩

theorem urlsplit_error_of_no_brackets {url : Str}
    (h1 : ¬ '[' ∈ url_netloc url) (h2 : ¬ ']' ∈ url_netloc url) :
    urlsplit_error url = none := by
  unfold urlsplit_error
  rw [if_neg]
  rintro (⟨h, _⟩ | ⟨h, _⟩)
  · exact h1 h
  · exact h2 h

theorem is_pdf_url_exc_of_no_brackets {url : Str}
    (h1 : ¬ '[' ∈ url_netloc url) (h2 : ¬ ']' ∈ url_netloc url) :
    is_pdf_url_exc url = .ok (is_pdf_url url) := by
  unfold is_pdf_url_exc urlparse_path_exc
  rw [urlsplit_error_of_no_brackets h1 h2]

theorem is_pdf_url_classification :
    (∀ url : Str, (s ".pdf").isSuffixOf ((urlparse_path url).map Char.toLower) = true →
      is_pdf_url url = true) ∧
    (∀ url : Str, containsSub (s "arxiv.org/pdf") (url.map Char.toLower) = true →
      is_pdf_url url = true) ∧
    (∀ url : Str, (s ".pdf").isSuffixOf ((urlparse_path url).map Char.toLower) = false →
      (∀ p ∈ pdf_patterns, containsSub p (url.map Char.toLower) = false) →
      is_pdf_url url = false) := by
  refine ⟨?_, ?_, ?_⟩
  · intro url h
    unfold is_pdf_url
    rw [if_pos h]
  · intro url h
    unfold is_pdf_url
    split
    · rfl
    · exact List.any_eq_true.mpr ⟨s "arxiv.org/pdf", by decide, h⟩
  · intro url h1 h2
    unfold is_pdf_url
    rw [if_neg (by simp [h1]), Bool.eq_false_iff]
    intro hany
    rcases List.any_eq_true.mp hany with ⟨p, hp, hsub⟩
    rw [h2 p hp] at hsub
    exact Bool.false_ne_true hsub

/-! ## The claims -/

/-- C3 counterexample: the URL `http://[x/a.pdf` ends in `.pdf`, yet the
classifier does not return `pdf` — the unguarded `urlparse` call raises
`ValueError("Invalid IPv6 URL")` out of `_is_pdf_url`, so the classifier is
not a total function into pdf/html. -/
theorem c3_counterexample :
    (s ".pdf").isSuffixOf (s "http://[x/a.pdf") = true ∧
    is_pdf_url_exc (s "http://[x/a.pdf") = .error (s "Invalid IPv6 URL") :=
  ⟨rfl, rfl⟩

/-- C3 (amended): on every URL whose netloc contains no square bracket — the
region where CPython's `urlparse` returns rather than raises — the
classifier returns: pdf when the lowercased path ends in `.pdf`; pdf when
the URL contains `arxiv.org/pdf` case-insensitively, even without a `.pdf`
suffix; html when the URL carries none of the fixed PDF signals.  A URL
whose netloc has an unmatched square bracket makes the classifier raise
`ValueError("Invalid IPv6 URL")` instead of returning. -/
theorem c3_amended_url_classifier :
    (∀ url : Str, ¬ '[' ∈ url_netloc url → ¬ ']' ∈ url_netloc url →
      (s ".pdf").isSuffixOf ((urlparse_path url).map Char.toLower) = true →
      is_pdf_url_exc url = .ok true) ∧
    (∀ url : Str, ¬ '[' ∈ url_netloc url → ¬ ']' ∈ url_netloc url →
      containsSub (s "arxiv.org/pdf") (url.map Char.toLower) = true →
      is_pdf_url_exc url = .ok true) ∧
    (∀ url : Str, ¬ '[' ∈ url_netloc url → ¬ ']' ∈ url_netloc url →
      (s ".pdf").isSuffixOf ((urlparse_path url).map Char.toLower) = false →
      (∀ p ∈ pdf_patterns, containsSub p (url.map Char.toLower) = false) →
      is_pdf_url_exc url = .ok false) ∧
    (∀ url : Str,
      ('[' ∈ url_netloc url ∧ ¬ ']' ∈ url_netloc url) ∨
      (']' ∈ url_netloc url ∧ ¬ '[' ∈ url_netloc url) →
      is_pdf_url_exc url = .error (s "Invalid IPv6 URL")) := by
  refine ⟨?_, ?_, ?_, ?_⟩
  · intro url h1 h2 h
    rw [is_pdf_url_exc_of_no_brackets h1 h2, is_pdf_url_classification.1 url h]
  · intro url h1 h2 h
    rw [is_pdf_url_exc_of_no_brackets h1 h2, is_pdf_url_classification.2.1 url h]
  · intro url h1 h2 h h3
    rw [is_pdf_url_exc_of_no_brackets h1 h2, is_pdf_url_classification.2.2 url h h3]
  · intro url h
    unfold is_pdf_url_exc urlparse_path_exc urlsplit_error
    rw [if_pos h]

/-- Witness for C3's amended statement at concrete URLs: an upper-case
`.pdf` URL with a query string, an `arxiv.org/pdf` URL without a `.pdf`
suffix, a plain article URL with no PDF signal, and the raising
unmatched-bracket URL. -/
theorem c3_amended_url_classifier_witness :
    is_pdf_url_exc (s "HTTP://X.COM/A.PDF?v=1") = .ok true ∧
    is_pdf_url_exc (s "https://ARXIV.ORG/pdf2506") = .ok true ∧
    is_pdf_url_exc (s "https://example.com/article") = .ok false ∧
    is_pdf_url_exc (s "http://[x/a.pdf") = .error (s "Invalid IPv6 URL") :=
  ⟨c3_amended_url_classifier.1 (s "HTTP://X.COM/A.PDF?v=1")
     (by decide) (by decide) (by decide),
   c3_amended_url_classifier.2.1 (s "https://ARXIV.ORG/pdf2506")
     (by decide) (by decide) (by decide),
   c3_amended_url_classifier.2.2.1 (s "https://example.com/article")
     (by decide) (by decide) (by decide) (by decide),
   c3_amended_url_classifier.2.2.2 (s "http://[x/a.pdf") (by decide)⟩

/-- C5: the creation stamp `D:20230615120000` parses to `2023-06-15`, and any
stamp not matching the `D:YYYYMMDD` prefix (the empty stamp included) leaves
the publish date `none`; the parse is a total function, so it never raises. -/
theorem c5_pdf_creation_date (cd : Str) (h : pdfDateMatch cd = none) :
    parseCreationDate (s "D:20230615120000") = some (s "2023-06-15") ∧
    parseCreationDate cd = none := by
  refine ⟨rfl, ?_⟩
  unfold parseCreationDate
  split
  · rfl
  · rw [h]

/-- Witness for C5 at the concrete non-matching stamp `hello`. -/
theorem c5_pdf_creation_date_witness :
    parseCreationDate (s "D:20230615120000") = some (s "2023-06-15") ∧
    parseCreationDate (s "hello") = none :=
  c5_pdf_creation_date (s "hello") (by decide)

/-- C6: on text that is exactly the citation
`[12] Smith et al., A Study of Things, 2020` the miner returns exactly that
entry; text containing `10.1000/xyz123` yields the entry
`DOI: 10.1000/xyz123`; and a DOI whose text already occurs in the Python
string rendering of the accumulator is not appended a second time, so the
doubled-DOI text still yields a single entry. -/
theorem c6_reference_miner :
    extract_references_from_text (s "[12] Smith et al., A Study of Things, 2020") =
      [s "[12] Smith et al., A Study of Things, 2020"] ∧
    extract_references_from_text (s "10.1000/xyz123") = [s "DOI: 10.1000/xyz123"] ∧
    (∀ (acc : List Str) (doi : Str),
      containsSub doi (pyStrListRender acc) = true → doi_step acc doi = acc) ∧
    extract_references_from_text (s "10.1000/xyz123 10.1000/xyz123") =
      [s "DOI: 10.1000/xyz123"] := by
  refine ⟨by decide, by decide, ?_, by decide⟩
  intro acc doi h
  unfold doi_step
  rw [if_pos h]

/-- Witness for C6's dedup step at a concrete accumulator already holding the
DOI entry. -/
theorem c6_reference_miner_witness :
    doi_step [s "DOI: 10.1000/xyz123"] (s "10.1000/xyz123") = [s "DOI: 10.1000/xyz123"] :=
  c6_reference_miner.2.2.1 [s "DOI: 10.1000/xyz123"] (s "10.1000/xyz123") (by decide)

/-- C7: for every input text the miner returns at most 50 entries, and the
output is the 50-entry truncation of the accumulator built in scan order —
all bracketed-citation entries first, then the DOI entries, then the arXiv
entries. -/
theorem c7_reference_cap (text : Str) :
    (extract_references_from_text text).length ≤ 50 ∧
    ∃ doiPart arxivPart,
      extract_references_from_text text =
        (bracket_entries text ++ doiPart ++ arxivPart).take 50 := by
  constructor
  · exact List.length_take_le 50 _
  · rcases foldl_step_extends doi_step doi_step_shape (scanDois text) (bracket_entries text)
      with ⟨d, hd⟩
    rcases foldl_step_extends arxiv_step arxiv_step_shape (scanArxiv text)
      ((scanDois text).foldl doi_step (bracket_entries text)) with ⟨a, ha⟩
    refine ⟨d, a, ?_⟩
    unfold extract_references_from_text all_references
    rw [ha, hd, List.append_assoc]

theorem smart_read_error_shape (o : Oracle) (url : Str) (upw : Bool) (e : Str)
    (h : (smart_read o url upw).error = some e) :
    e ≠ [] ∧ (smart_read o url upw).content = [] ∧
    (smart_read o url upw).title = none ∧ (smart_read o url upw).author = none ∧
    (smart_read o url upw).publish_date = none ∧
    (smart_read o url upw).references = [] ∧
    (smart_read o url upw).url = some url := by
  by_cases hp : is_pdf_url url = true
  · have hs : smart_read o url upw = read_pdf o url := by
      unfold smart_read
      rw [if_pos hp]
    rw [hs] at h ⊢
    rcases read_pdf_shape o url with ⟨e1, hne, heq⟩ | ⟨b, doc, _, _, heq⟩
    · rw [heq] at h ⊢
      obtain rfl : e1 = e := Option.some.inj h
      exact ⟨hne, rfl, rfl, rfl, rfl, rfl, rfl⟩
    · rw [heq] at h
      exact absurd h (by simp)
  · have hs : smart_read o url upw = read_html o url upw := by
      unfold smart_read
      rw [if_neg hp]
    rw [hs] at h ⊢
    rcases read_html_shape o url upw with ⟨e1, hne, heq⟩ | ⟨he, _, _, _⟩
    · rw [heq] at h ⊢
      obtain rfl : e1 = e := Option.some.inj h
      exact ⟨hne, rfl, rfl, rfl, rfl, rfl, rfl⟩
    · rw [he] at h
      exact absurd h (by simp)

/-- C1: the no-escape contract is broken by the unguarded classifier call —
at the failing input `http://[x/a.pdf` the `ValueError("Invalid IPv6 URL")`
raised by `urlparse` inside `_is_pdf_url` (called outside every `try` block)
escapes both public entry points as an exception instead of becoming an
error result.  Wherever classification does not raise the contract does
hold: a returned result with error set carries a non-empty message and only
the original URL, and a fetch failure on either path is converted into
exactly such a result with the path-prefixed message. -/
theorem c1_unguarded_classifier_exception :
    (∀ (o : Oracle) (upw : Bool),
      smart_read_exc o (s "http://[x/a.pdf") upw = .error (s "Invalid IPv6 URL") ∧
      smart_read_to_markdown_exc o (s "http://[x/a.pdf") upw =
        .error (s "Invalid IPv6 URL")) ∧
    (∀ (o : Oracle) (url : Str) (upw : Bool) (r : ReadResult),
      smart_read_exc o url upw = .ok r → ∀ e, r.error = some e →
      e ≠ [] ∧ r.content = [] ∧ r.title = none ∧ r.author = none ∧
      r.publish_date = none ∧ r.references = [] ∧ r.url = some url) ∧
    (∀ (o : Oracle) (url : Str) (upw : Bool) (e : Str),
      is_pdf_url_exc url = .ok true → o.download url = .error e →
      smart_read_exc o url upw = .ok (read_pdf o url) ∧
      (read_pdf o url).error = some (s "PDF 读取失败: " ++ e)) ∧
    (∀ (o : Oracle) (url : Str) (upw : Bool) (e : Str),
      is_pdf_url_exc url = .ok false →
      (if upw then o.fetchRendered url else o.fetchPlain url) = .error e →
      smart_read_exc o url upw = .ok (read_html o url upw) ∧
      (read_html o url upw).error = some (s "HTML 读取失败: " ++ e)) := by
  refine ⟨?_, ?_, ?_, ?_⟩
  · intro o upw
    exact ⟨rfl, rfl⟩
  · intro o url upw r hr e he
    unfold smart_read_exc at hr
    cases hie : is_pdf_url_exc url with
    | error e2 =>
      simp only [hie] at hr
      exact Except.noConfusion hr
    | ok b =>
      simp only [hie] at hr
      obtain rfl : smart_read o url upw = r := Except.ok.inj hr
      exact smart_read_error_shape o url upw e he
  · intro o url upw e hok hd
    have hp : is_pdf_url url = true := by
      unfold is_pdf_url_exc at hok
      cases hu : urlparse_path_exc url with
      | error e2 =>
        simp only [hu] at hok
        exact Except.noConfusion hok
      | ok p =>
        simp only [hu] at hok
        exact Except.ok.inj hok
    constructor
    · unfold smart_read_exc
      simp only [hok]
      unfold smart_read
      rw [if_pos hp]
    · unfold read_pdf
      rw [hd]
  · intro o url upw e hok hf
    have hp : is_pdf_url url = false := by
      unfold is_pdf_url_exc at hok
      cases hu : urlparse_path_exc url with
      | error e2 =>
        simp only [hu] at hok
        exact Except.noConfusion hok
      | ok p =>
        simp only [hu] at hok
        exact Except.ok.inj hok
    constructor
    · unfold smart_read_exc
      simp only [hok]
      unfold smart_read
      rw [if_neg (by simp [hp])]
    · unfold read_html
      rw [hf]

/-- Witness for C1 with the all-failing environment: a returned PDF-path
error result carries only the URL and message, and each path's fetch failure
becomes the prefixed error on a returned (not raised) result. -/
theorem c1_unguarded_classifier_exception_witness :
    (s "PDF 读取失败: 404" ≠ [] ∧
     (smart_read failOracle (s "http://x.com/a.pdf") true).content = [] ∧
     (smart_read failOracle (s "http://x.com/a.pdf") true).title = none ∧
     (smart_read failOracle (s "http://x.com/a.pdf") true).author = none ∧
     (smart_read failOracle (s "http://x.com/a.pdf") true).publish_date = none ∧
     (smart_read failOracle (s "http://x.com/a.pdf") true).references = [] ∧
     (smart_read failOracle (s "http://x.com/a.pdf") true).url =
       some (s "http://x.com/a.pdf")) ∧
    (smart_read_exc failOracle (s "http://x.com/a.pdf") true =
       .ok (read_pdf failOracle (s "http://x.com/a.pdf")) ∧
     (read_pdf failOracle (s "http://x.com/a.pdf")).error =
       some (s "PDF 读取失败: " ++ s "404")) ∧
    (smart_read_exc failOracle (s "https://example.com/article") true =
       .ok (read_html failOracle (s "https://example.com/article") true) ∧
     (read_html failOracle (s "https://example.com/article") true).error =
       some (s "HTML 读取失败: " ++ s "timeout")) :=
  ⟨c1_unguarded_classifier_exception.2.1 failOracle (s "http://x.com/a.pdf") true
     (smart_read failOracle (s "http://x.com/a.pdf") true) rfl
     (s "PDF 读取失败: 404") rfl,
   c1_unguarded_classifier_exception.2.2.1 failOracle (s "http://x.com/a.pdf") true
     (s "404") rfl rfl,
   c1_unguarded_classifier_exception.2.2.2 failOracle (s "https://example.com/article") true
     (s "timeout") rfl rfl⟩

/-- C2 (amended): an error result always has empty content, and on the HTML
path the error field is unset exactly when the content is non-empty; the PDF
path, however, may return a result with error unset and content empty. -/
theorem c2_amended_error_content_exclusivity (o : Oracle) (url : Str) (upw : Bool) :
    ((smart_read o url upw).error ≠ none → (smart_read o url upw).content = []) ∧
    (is_pdf_url url = false →
      ((smart_read o url upw).error = none ↔ (smart_read o url upw).content ≠ [])) := by
  constructor
  · intro h
    by_cases hp : is_pdf_url url = true
    · have hs : smart_read o url upw = read_pdf o url := by
        unfold smart_read
        rw [if_pos hp]
      rw [hs] at h ⊢
      rcases read_pdf_shape o url with ⟨e1, _, heq⟩ | ⟨b, doc, _, _, heq⟩
      · rw [heq]
      · rw [heq] at h
        exact absurd rfl h
    · have hs : smart_read o url upw = read_html o url upw := by
        unfold smart_read
        rw [if_neg hp]
      rw [hs] at h ⊢
      rcases read_html_shape o url upw with ⟨e1, _, heq⟩ | ⟨he, _, _, _⟩
      · rw [heq]
      · exact absurd he h
  · intro hp
    have hs : smart_read o url upw = read_html o url upw := by
      unfold smart_read
      rw [if_neg (by simp [hp])]
    rw [hs]
    rcases read_html_shape o url upw with ⟨e1, _, heq⟩ | ⟨he, hc, _, _⟩
    · rw [heq]
      simp
    · simp [he, hc]

/-- C2 counterexample: on the PDF path a document whose single page is
whitespace-only yields a result with the error field unset and content
empty, so "exactly one of error set / content non-empty" fails as a
universal invariant of `smart_read`. -/
theorem c2_counterexample :
    (smart_read wsPdfOracle (s "http://x.com/a.pdf") true).error = none ∧
    (smart_read wsPdfOracle (s "http://x.com/a.pdf") true).content = [] :=
  ⟨rfl, rfl⟩

/-- Witness for C2's amended statement: an errored result with empty content,
and the HTML-path equivalence at a result whose content is the non-empty
whitespace string. -/
theorem c2_amended_error_content_exclusivity_witness :
    (smart_read failOracle (s "https://example.com/article") true).content = [] ∧
    ((smart_read wsHtmlOracle (s "https://example.com/article") true).error = none ↔
     (smart_read wsHtmlOracle (s "https://example.com/article") true).content ≠ []) :=
  ⟨(c2_amended_error_content_exclusivity failOracle (s "https://example.com/article") true).1
     (by decide),
   (c2_amended_error_content_exclusivity wsHtmlOracle (s "https://example.com/article") true).2
     (by decide)⟩

/-- C4 (amended): when the HTML extraction pass yields `None` or the empty
string, the pipeline returns the dedicated no-extractable-content error
result with empty content; a whitespace-only but non-empty extraction result
is NOT special-cased — the truthiness test `if not text_content` lets it
through as a success. -/
theorem c4_amended_empty_extraction (o : Oracle) (url : Str) (upw : Bool) (html : Str)
    (md : Option HtmlMeta)
    (hf : (if upw then o.fetchRendered url else o.fetchPlain url) = .ok html)
    (hm : o.extractMetadata html = .ok md) :
    (o.extractContent html = .ok none →
      read_html o url upw = { content := [], url := some url, error := some noContentMsg }) ∧
    (o.extractContent html = .ok (some []) →
      read_html o url upw = { content := [], url := some url, error := some noContentMsg }) ∧
    (∀ (c : Char) (cs : Str), o.extractContent html = .ok (some (c :: cs)) →
      (read_html o url upw).error = none ∧ (read_html o url upw).content = c :: cs) := by
  refine ⟨?_, ?_, ?_⟩
  · intro hc
    unfold read_html
    simp only [hf, hm, hc]
  · intro hc
    unfold read_html
    simp only [hf, hm, hc]
  · intro c cs hc
    cases md with
    | none =>
      have hr : read_html o url upw =
          { content := c :: cs, url := some url, content_type := s "html",
            references := extract_references_from_text (c :: cs) } := by
        unfold read_html
        simp only [hf, hm, hc]
      rw [hr]
      exact ⟨rfl, rfl⟩
    | some m =>
      have hr : read_html o url upw =
          { content := c :: cs, title := m.title, author := m.author,
            publish_date := m.date, url := some url, content_type := s "html",
            references := extract_references_from_text (c :: cs) } := by
        unfold read_html
        simp only [hf, hm, hc]
      rw [hr]
      exact ⟨rfl, rfl⟩

/-- C4 counterexample: an extraction pass yielding the whitespace-only string
`" "` — "no content" in the claim's sense — produces a SUCCESS result whose
content is that whitespace, not an error result. -/
theorem c4_counterexample :
    wsHtmlOracle.extractContent (s "<html></html>") = .ok (some (s " ")) ∧
    (smart_read wsHtmlOracle (s "https://example.com/article") true).error = none ∧
    (smart_read wsHtmlOracle (s "https://example.com/article") true).content = s " " :=
  ⟨rfl, rfl, rfl⟩

/-- Witness for C4's amended statement in the environment whose extraction
finds nothing. -/
theorem c4_amended_empty_extraction_witness :
    (emptyHtmlOracle.extractContent (s "<html></html>") = .ok none →
      read_html emptyHtmlOracle (s "https://example.com/article") true =
        { content := [], url := some (s "https://example.com/article"),
          error := some noContentMsg }) ∧
    (emptyHtmlOracle.extractContent (s "<html></html>") = .ok (some []) →
      read_html emptyHtmlOracle (s "https://example.com/article") true =
        { content := [], url := some (s "https://example.com/article"),
          error := some noContentMsg }) ∧
    (∀ (c : Char) (cs : Str),
      emptyHtmlOracle.extractContent (s "<html></html>") = .ok (some (c :: cs)) →
      (read_html emptyHtmlOracle (s "https://example.com/article") true).error = none ∧
      (read_html emptyHtmlOracle (s "https://example.com/article") true).content = c :: cs) :=
  c4_amended_empty_extraction emptyHtmlOracle (s "https://example.com/article") true
    (s "<html></html>") none rfl rfl

/-- C8 (amended): the content type names the extraction path on successful
results — `pdf` when the classifier chose the PDF path, `html` otherwise —
but on every errored result it is the dataclass default `html`, even when
the PDF path produced the error. -/
theorem c8_amended_content_type (o : Oracle) (url : Str) (upw : Bool) :
    ((smart_read o url upw).error = none →
      (smart_read o url upw).content_type = (if is_pdf_url url then s "pdf" else s "html")) ∧
    ((smart_read o url upw).error ≠ none → (smart_read o url upw).content_type = s "html") := by
  by_cases hp : is_pdf_url url = true
  · have hs : smart_read o url upw = read_pdf o url := by
      unfold smart_read
      rw [if_pos hp]
    rw [hs, if_pos hp]
    rcases read_pdf_shape o url with ⟨e1, _, heq⟩ | ⟨b, doc, _, _, heq⟩
    · rw [heq]
      exact ⟨fun h => absurd h (by simp), fun _ => rfl⟩
    · rw [heq]
      exact ⟨fun _ => rfl, fun h => absurd rfl h⟩
  · have hs : smart_read o url upw = read_html o url upw := by
      unfold smart_read
      rw [if_neg hp]
    rw [hs, if_neg hp]
    rcases read_html_shape o url upw with ⟨e1, _, heq⟩ | ⟨_, _, hct, _⟩
    · rw [heq]
      exact ⟨fun h => absurd h (by simp), fun _ => rfl⟩
    · exact ⟨fun _ => hct, fun _ => hct⟩

/-- C8 counterexample: a URL the classifier sends down the PDF path whose
download fails yields an errored result whose content type is `html`, not
`pdf` — so "contentType names the path, including on Errored results" fails. -/
theorem c8_counterexample :
    is_pdf_url (s "http://x.com/a.pdf") = true ∧
    (smart_read failOracle (s "http://x.com/a.pdf") true).error =
      some (s "PDF 读取失败: 404") ∧
    (smart_read failOracle (s "http://x.com/a.pdf") true).content_type = s "html" :=
  ⟨rfl, rfl, rfl⟩

/-- Witness for C8's amended statement: a successful PDF-path result carries
content type `pdf`, and an errored HTML-path result carries `html`. -/
theorem c8_amended_content_type_witness :
    (smart_read wsPdfOracle (s "http://x.com/a.pdf") true).content_type =
      (if is_pdf_url (s "http://x.com/a.pdf") then s "pdf" else s "html") ∧
    (smart_read failOracle (s "https://example.com/article") true).content_type = s "html" :=
  ⟨(c8_amended_content_type wsPdfOracle (s "http://x.com/a.pdf") true).1 (by decide),
   (c8_amended_content_type failOracle (s "https://example.com/article") true).2 (by decide)⟩

/-- C9: for the sample success result the formatted output contains `# T`,
the author line `**作者**: A`, the body `Body`, and no references section;
when the title is absent the placeholder title line heads the output parts;
the source link and the upper-cased content type always occur in the output
of a success result; and the references section — header plus one bullet per
entry — is appended to the four base parts exactly when `references` is
non-empty. -/
theorem c9_formatter :
    (containsSub (s "# T") (smart_read_to_markdown_of (s "http://ex.com") sampleResult) = true ∧
     containsSub (s "**作者**: A")
       (smart_read_to_markdown_of (s "http://ex.com") sampleResult) = true ∧
     containsSub (s "Body") (smart_read_to_markdown_of (s "http://ex.com") sampleResult) = true ∧
     containsSub (s "参考文献")
       (smart_read_to_markdown_of (s "http://ex.com") sampleResult) = false) ∧
    (∀ (url : Str) (r : ReadResult), r.error = none → r.title = none →
      smart_read_to_markdown_of url r = joinSep (s "\n\n") (output_parts url r) ∧
      s "# 未知标题" ∈ output_parts url r) ∧
    (∀ (url : Str) (r : ReadResult), r.error = none →
      containsSub (s "**来源**: [" ++ url ++ s "](" ++ url ++ s ")")
        (smart_read_to_markdown_of url r) = true ∧
      containsSub (s "**类型**: " ++ r.content_type.map Char.toUpper)
        (smart_read_to_markdown_of url r) = true) ∧
    (∀ (url : Str) (r : ReadResult), r.error = none →
      (r.references = [] → output_parts url r = base_parts url r) ∧
      (r.references ≠ [] → output_parts url r =
        base_parts url r ++ ref_header :: r.references.map (fun ref => s "- " ++ ref))) := by
  refine ⟨⟨by decide, by decide, by decide, by decide⟩, ?_, ?_, ?_⟩
  · intro url r he ht
    refine ⟨?_, ?_⟩
    · unfold smart_read_to_markdown_of
      simp only [he]
    · unfold output_parts base_parts
      simp only [ht]
      exact List.mem_append_left _ (List.mem_cons_self _ _)
  · intro url r he
    have hout : smart_read_to_markdown_of url r = joinSep (s "\n\n") (output_parts url r) := by
      unfold smart_read_to_markdown_of
      simp only [he]
    have hmem : joinSep (s "\n") (meta_parts url r) ∈ output_parts url r := by
      unfold output_parts base_parts
      exact List.mem_append_left _ (List.mem_cons_of_mem _ (List.mem_cons_self _ _))
    constructor
    · have hsrc : (s "**来源**: [" ++ url ++ s "](" ++ url ++ s ")") ∈ meta_parts url r := by
        unfold meta_parts
        exact List.mem_append_right _ (List.mem_cons_self _ _)
      have h1 := containsSub_joinSep (s "\n") (containsSub_self _) (meta_parts url r) hsrc
      rw [hout]
      exact containsSub_joinSep (s "\n\n") h1 (output_parts url r) hmem
    · have htype : (s "**类型**: " ++ r.content_type.map Char.toUpper) ∈ meta_parts url r := by
        unfold meta_parts
        exact List.mem_append_right _ (List.mem_cons_of_mem _ (List.mem_cons_self _ _))
      have h1 := containsSub_joinSep (s "\n") (containsSub_self _) (meta_parts url r) htype
      rw [hout]
      exact containsSub_joinSep (s "\n\n") h1 (output_parts url r) hmem
  · intro url r _he
    constructor
    · intro hr
      unfold output_parts
      rw [if_neg (by simp [hr]), List.append_nil]
    · intro hr
      unfold output_parts
      rw [if_pos hr]

/-- Witness for C9 at a result carrying only a body: the formatter emits the
placeholder title, the source and type lines, and no references section. -/
theorem c9_formatter_witness :
    (smart_read_to_markdown_of (s "u") plainResult =
       joinSep (s "\n\n") (output_parts (s "u") plainResult) ∧
     s "# 未知标题" ∈ output_parts (s "u") plainResult) ∧
    (containsSub (s "**来源**: [" ++ s "u" ++ s "](" ++ s "u" ++ s ")")
       (smart_read_to_markdown_of (s "u") plainResult) = true ∧
     containsSub (s "**类型**: " ++ plainResult.content_type.map Char.toUpper)
       (smart_read_to_markdown_of (s "u") plainResult) = true) ∧
    (plainResult.references = [] →
      output_parts (s "u") plainResult = base_parts (s "u") plainResult) ∧
    (plainResult.references ≠ [] →
      output_parts (s "u") plainResult = base_parts (s "u") plainResult ++
        ref_header :: plainResult.references.map (fun ref => s "- " ++ ref)) :=
  ⟨c9_formatter.2.1 (s "u") plainResult rfl rfl,
   c9_formatter.2.2.1 (s "u") plainResult rfl,
   c9_formatter.2.2.2 (s "u") plainResult rfl⟩

/-- C10: the PDF page loop keeps exactly the pages whose text strips to
non-empty, rendering each as the `## 第 N 页` marker (N the 1-based original
page index) followed by its text — so markers may skip numbers — and on a
successfully opened document the result's content is the blank-line join of
those entries (with 3+ newline runs collapsed), with error unset; a document
whose pages are all whitespace-only yields empty content with error unset. -/
theorem c10_pdf_page_markers :
    (∀ pages : List Str, pdf_full_text pages =
      (List.enum pages).filterMap
        (fun q => if pyStrip q.2 ≠ [] then some (pdf_page_entry q.1 q.2) else none)) ∧
    (∀ (o : Oracle) (url b : Str) (doc : PdfDoc),
      o.download url = .ok b → o.openDoc b = .ok doc →
      (read_pdf o url).error = none ∧
      (read_pdf o url).content =
        collapseBlankLines (joinSep (s "\n\n") (pdf_full_text doc.pages)) ∧
      ((∀ t ∈ doc.pages, pyStrip t = []) → (read_pdf o url).content = [])) := by
  constructor
  · intro pages
    exact pdf_full_text_aux_eq pages 0
  · intro o url b doc hd ho
    have hr : read_pdf o url =
        { content := collapseBlankLines (joinSep (s "\n\n") (pdf_full_text doc.pages)),
          title := if doc.title = [] then none else some doc.title,
          author := if doc.author = [] then none else some doc.author,
          publish_date := parseCreationDate doc.creationDate,
          url := some url, content_type := s "pdf",
          references := extract_references_from_text
            (joinSep (s "\n\n") (pdf_full_text doc.pages)) } := by
      unfold read_pdf
      simp only [hd, ho]
    refine ⟨by rw [hr], by rw [hr], ?_⟩
    intro hws
    rw [hr]
    show collapseBlankLines (joinSep (s "\n\n") (pdf_full_text doc.pages)) = []
    rw [pdf_full_text_nil hws]
    rfl

/-- Witness for C10 on the environment producing a document whose single page
is whitespace-only. -/
theorem c10_pdf_page_markers_witness :
    (read_pdf wsPdfOracle (s "http://x.com/a.pdf")).error = none ∧
    (read_pdf wsPdfOracle (s "http://x.com/a.pdf")).content =
      collapseBlankLines (joinSep (s "\n\n") (pdf_full_text [s " "])) ∧
    ((∀ t ∈ ([s " "] : List Str), pyStrip t = []) →
      (read_pdf wsPdfOracle (s "http://x.com/a.pdf")).content = []) :=
  c10_pdf_page_markers.2 wsPdfOracle (s "http://x.com/a.pdf") (s "%PDF")
    { title := [], author := [], creationDate := [], pages := [s " "] } rfl rfl

end SmartReader
